import Mathlib

/-!
Verification of the redux-rs store core (jeroenvervaeke/redux-rs).

The repository implements a redux-style state container: a worker actor
exclusively owns the state, processes Dispatch/Select/Subscribe messages one
at a time in FIFO order, and the `Store` facade translates method calls into
messages and awaits completion.  All claims below concern a single caller
issuing operations one at a time and awaiting each before the next, so the
store is embedded as a sequential state machine: the worker state together
with handler functions, and an interpreter that runs a list of facade
operations in order (each operation completing before the next starts,
exactly as an awaited message send does).

Subscribers in the source are side-effecting closures `(&State) -> ()`.  To
reason about which subscriber is invoked when and with what state, a
subscriber is embedded as a registration identifier (`Nat`) and each run
produces a trace of invocation events `(subscriber id, state argument)` in
the order the worker performs the calls.
-/

namespace ReduxRs

/-- Modelled from the spec: the Worker of §3/§4.1 (src/store/worker.rs is not
in the sources).  It owns the root reducer supplied at construction, the
authoritative state, and the ordered list of registered subscribers
(represented by identifiers). -/
structure StateWorker (State Action : Type) where
  root_reducer : State → Action → State
  state : State
  subscribers : List Nat

/-- An invocation event: subscriber `id` was called with state `s`. -/
abbrev SubEvent (State : Type) : Type := Nat × State

/-- Modelled from the spec: Worker handling of `Dispatch{action}` (§4.1):
`new_state = Reducer(old_state, &action)`, the old state is replaced, and
every subscriber is invoked with the new state, in registration order.
Returns the updated worker and the subscriber-invocation events. -/
def StateWorker.handleDispatch {State Action : Type} (w : StateWorker State Action)
    (action : Action) : StateWorker State Action × List (SubEvent State) :=
  let new_state := w.root_reducer w.state action
  ({ w with state := new_state }, w.subscribers.map (fun id => (id, new_state)))

/-- Modelled from the spec: Worker handling of `Select{selector, reply}`
(§4.1): `value = Selector(&state)` is sent on the reply channel; the state is
not modified. -/
def StateWorker.handleSelect {State Action R : Type} (w : StateWorker State Action)
    (selector : State → R) : R :=
  selector w.state

/-- Modelled from the spec: Worker handling of `Subscribe{subscriber}` (§4.1):
the subscriber is appended to the worker's subscriber list. -/
def StateWorker.handleSubscribe {State Action : Type} (w : StateWorker State Action)
    (id : Nat) : StateWorker State Action :=
  { w with subscribers := w.subscribers ++ [id] }

namespace Store

/-- Embeds `Store::new_with_state` (src/store/mod.rs:43-57): constructs the worker
with the given root reducer and the provided state and spawns its loop.  In
the sequential embedding the store is identified with the worker it owns;
no subscribers are registered at construction. -/
def new_with_state {State Action : Type} (root_reducer : State → Action → State)
    (state : State) : StateWorker State Action :=
  { root_reducer := root_reducer, state := state, subscribers := [] }

/-- Embeds `Store::new` (src/store/mod.rs:35-40): delegates to `new_with_state` with
the default state. -/
def new {State Action : Type} [Inhabited State]
    (root_reducer : State → Action → State) : StateWorker State Action :=
  new_with_state root_reducer default

/-- Embeds `Store::dispatch` (src/store/mod.rs:63-65): sends `Dispatch::new(action)`
to the worker and awaits its completion. -/
def dispatch {State Action : Type} (w : StateWorker State Action)
    (action : Action) : StateWorker State Action × List (SubEvent State) :=
  w.handleDispatch action

/-- Embeds `Store::select` (src/store/mod.rs:69-75): sends `Select::new(selector)`
to the worker and awaits the reply value. -/
def select {State Action R : Type} (w : StateWorker State Action)
    (selector : State → R) : R :=
  w.handleSelect selector

/-- Embeds `Store::state_cloned` (src/store/mod.rs:79-84): implemented as
`self.select(|state| state.clone())`; cloning is the identity on the value. -/
def state_cloned {State Action : Type} (w : StateWorker State Action) : State :=
  select w (fun state => state)

/-- Embeds `Store::subscribe` (src/store/mod.rs:88-90): sends
`Subscribe::new(Box::new(subscriber))` to the worker and awaits completion. -/
def subscribe {State Action : Type} (w : StateWorker State Action)
    (id : Nat) : StateWorker State Action :=
  w.handleSubscribe id

end Store

namespace StoreApi

/-- Embeds the `StoreApi` impl for `Store` (src/store/mod.rs:112-114):
`Store::dispatch(self, action.into())` — the `Into` conversion `conv` is
applied to the argument exactly once and the result is dispatched through the
inherent method. -/
def dispatch {State Action A : Type} (conv : A → Action)
    (w : StateWorker State Action) (action : A) :
    StateWorker State Action × List (SubEvent State) :=
  Store.dispatch w (conv action)

end StoreApi

/-- Dispatch a list of actions one at a time, each awaited before the next;
the traces of subscriber invocations are concatenated in order. -/
def dispatchAll {State Action : Type} (w : StateWorker State Action) :
    List Action → StateWorker State Action × List (SubEvent State)
  | [] => (w, [])
  | a :: rest =>
    let step := Store.dispatch w a
    let next := dispatchAll step.1 rest
    (next.1, step.2 ++ next.2)

/-- One public store operation, issued and awaited by a single caller.
`V` is the selectors' result type for this run. -/
inductive Op (State Action V : Type) where
  | dispatch (action : Action)
  | select (selector : State → V)
  | subscribe (id : Nat)
  | state_cloned

/-- The observable completion value of one operation: `done` for
dispatch/subscribe (awaitable, no value), `value` for select, `state` for
state_cloned. -/
inductive Out (State V : Type) where
  | done
  | value (v : V)
  | state (s : State)
  deriving DecidableEq

/-- Run a sequence of store operations one at a time, each awaited before the
next is issued.  Returns the final worker, the list of per-operation results,
and the trace of subscriber invocations. -/
def runOps {State Action V : Type} (w : StateWorker State Action) :
    List (Op State Action V) →
    StateWorker State Action × List (Out State V) × List (SubEvent State)
  | [] => (w, [], [])
  | Op.dispatch a :: rest =>
    let step := Store.dispatch w a
    let next := runOps step.1 rest
    (next.1, Out.done :: next.2.1, step.2 ++ next.2.2)
  | Op.select f :: rest =>
    let v := Store.select w f
    let next := runOps w rest
    (next.1, Out.value v :: next.2.1, next.2.2)
  | Op.subscribe id :: rest =>
    let next := runOps (Store.subscribe w id) rest
    (next.1, Out.done :: next.2.1, next.2.2)
  | Op.state_cloned :: rest =>
    let s := Store.state_cloned w
    let next := runOps w rest
    (next.1, Out.state s :: next.2.1, next.2.2)

/-- Modelled from the spec: a middleware's `dispatch` behavior (§4.4,
src/middleware.rs is not in the sources).  On an outer action it may forward
zero, one, or many inner actions to the wrapped store, in order; `select` and
`subscribe` are forwarded unchanged.  The forwarding decision is embedded as
the list of inner actions forwarded for each outer action. -/
def MiddleWare (Action OuterAction : Type) : Type := OuterAction → List Action

/-- Modelled from the spec: `StoreWithMiddleware` (§4.4) — the store produced
by `Store::wrap` (src/store/mod.rs:93-102): the inner store plus the
interposed middleware, exposing the same capability interface for the outer
action type. -/
structure StoreWithMiddleware (State Action OuterAction : Type) where
  inner : StateWorker State Action
  middleware : MiddleWare Action OuterAction

/-- Embeds `Store::wrap` (src/store/mod.rs:93-102): consumes the store and produces
a `StoreWithMiddleware` interposing the given middleware. -/
def Store.wrap {State Action OuterAction : Type} (w : StateWorker State Action)
    (m : MiddleWare Action OuterAction) : StoreWithMiddleware State Action OuterAction :=
  { inner := w, middleware := m }

namespace StoreWithMiddleware

/-- Modelled from the spec: dispatch on the wrapped store (§4.4): the
middleware receives the outer action and forwards its chosen inner actions to
the inner store's own dispatch, each awaited in order. -/
def dispatch {State Action OuterAction : Type}
    (st : StoreWithMiddleware State Action OuterAction) (action : OuterAction) :
    StoreWithMiddleware State Action OuterAction × List (SubEvent State) :=
  let next := dispatchAll st.inner (st.middleware action)
  ({ st with inner := next.1 }, next.2)

/-- Modelled from the spec: `select` on the wrapped store is forwarded
unchanged to the inner store (§4.4). -/
def select {State Action OuterAction R : Type}
    (st : StoreWithMiddleware State Action OuterAction) (selector : State → R) : R :=
  Store.select st.inner selector

/-- Modelled from the spec: `state_cloned` on the wrapped store is forwarded
unchanged to the inner store (§4.4). -/
def state_cloned {State Action OuterAction : Type}
    (st : StoreWithMiddleware State Action OuterAction) : State :=
  Store.state_cloned st.inner

/-- Modelled from the spec: `subscribe` on the wrapped store is forwarded
unchanged to the inner store (§4.4). -/
def subscribe {State Action OuterAction : Type}
    (st : StoreWithMiddleware State Action OuterAction) (id : Nat) :
    StoreWithMiddleware State Action OuterAction :=
  { st with inner := Store.subscribe st.inner id }

end StoreWithMiddleware

/-- Run a sequence of operations (over the outer action type) against a
wrapped store, one at a time, each awaited before the next. -/
def runOpsMW {State Action OuterAction V : Type}
    (st : StoreWithMiddleware State Action OuterAction) :
    List (Op State OuterAction V) →
    StoreWithMiddleware State Action OuterAction × List (Out State V) × List (SubEvent State)
  | [] => (st, [], [])
  | Op.dispatch a :: rest =>
    let step := StoreWithMiddleware.dispatch st a
    let next := runOpsMW step.1 rest
    (next.1, Out.done :: next.2.1, step.2 ++ next.2.2)
  | Op.select f :: rest =>
    let v := StoreWithMiddleware.select st f
    let next := runOpsMW st rest
    (next.1, Out.value v :: next.2.1, next.2.2)
  | Op.subscribe id :: rest =>
    let next := runOpsMW (StoreWithMiddleware.subscribe st id) rest
    (next.1, Out.done :: next.2.1, next.2.2)
  | Op.state_cloned :: rest =>
    let s := StoreWithMiddleware.state_cloned st
    let next := runOpsMW st rest
    (next.1, Out.state s :: next.2.1, next.2.2)

/-- The counter state of the tests (src/store/mod.rs:142-151). -/
structure Counter where
  value : Int
  deriving DecidableEq

/-- The counter actions of the tests (src/store/mod.rs:168-171). -/
inductive CounterAction where
  | Increment
  | Decrement
  deriving DecidableEq

/-- The counter reducer of the tests (src/store/mod.rs:173-178). -/
def counter_reducer (state : Counter) (action : CounterAction) : Counter :=
  match action with
  | CounterAction.Increment => { value := state.value + 1 }
  | CounterAction.Decrement => { value := state.value - 1 }

/-- The successive post-dispatch states produced by dispatching a list of
actions in order from `s0` under reducer `r`: the k-th element is the state
installed by the k-th dispatch. -/
def dispatchStates {State Action : Type} (r : State → Action → State) (s0 : State) :
    List Action → List State
  | [] => []
  | a :: rest => r s0 a :: dispatchStates r (r s0 a) rest

theorem scanl_eq_cons_tail {α β : Type} (f : β → α → β) (b : β) (l : List α) :
    List.scanl f b l = b :: (List.scanl f b l).tail := by
  cases l with
  | nil => rfl
  | cons a l => simp [List.scanl_cons]

theorem dispatchStates_eq_scanl_tail {State Action : Type} (r : State → Action → State)
    (s0 : State) (as : List Action) :
    dispatchStates r s0 as = (List.scanl r s0 as).tail := by
  induction as generalizing s0 with
  | nil => rfl
  | cons a rest ih =>
      simp only [dispatchStates, List.scanl_cons, ih, List.singleton_append,
        List.tail_cons]
      exact (scanl_eq_cons_tail r (r s0 a) rest).symm

theorem length_dispatchStates {State Action : Type} (r : State → Action → State)
    (s0 : State) (as : List Action) :
    (dispatchStates r s0 as).length = as.length := by
  induction as generalizing s0 with
  | nil => rfl
  | cons a rest ih => simp [dispatchStates, ih]

theorem dispatchAll_fst {State Action : Type} (as : List Action)
    (w : StateWorker State Action) :
    (dispatchAll w as).1
      = { root_reducer := w.root_reducer,
          state := List.foldl w.root_reducer w.state as,
          subscribers := w.subscribers } := by
  induction as generalizing w with
  | nil => rfl
  | cons a rest ih =>
      simp [dispatchAll, Store.dispatch, StateWorker.handleDispatch, ih]

theorem dispatchAll_snd {State Action : Type} (as : List Action)
    (w : StateWorker State Action) :
    (dispatchAll w as).2
      = (dispatchStates w.root_reducer w.state as).flatMap
          (fun s => w.subscribers.map (fun id => (id, s))) := by
  induction as generalizing w with
  | nil => rfl
  | cons a rest ih =>
      simp [dispatchAll, Store.dispatch, StateWorker.handleDispatch, ih,
        dispatchStates, List.flatMap_cons]

theorem trace_filter_length {State : Type} (states : List State) (subs : List Nat)
    (id : Nat) :
    (((states.flatMap (fun s => subs.map (fun j => (j, s)))).filter
        (fun e => e.1 == id)).length) = states.length * subs.count id := by
  induction states with
  | nil => simp
  | cons s rest ih =>
      simp only [List.flatMap_cons, List.filter_append, List.length_append, ih,
        List.filter_map, List.length_map, List.countP_eq_length_filter, List.count,
        Function.comp_def, List.length_cons]
      ring

theorem trace_filter_not_mem {State : Type} (states : List State) (subs : List Nat)
    (id : Nat) (h : id ∉ subs) :
    (states.flatMap (fun s => subs.map (fun j => (j, s)))).filter
        (fun e => e.1 == id) = [] := by
  induction states with
  | nil => rfl
  | cons s rest ih =>
      simp only [List.flatMap_cons, List.filter_append, ih, List.append_nil]
      rw [List.filter_eq_nil_iff]
      intro e he
      rcases List.mem_map.mp he with ⟨j, hj, rfl⟩
      simp only [beq_iff_eq]
      intro hcontra
      exact h (hcontra ▸ hj)

theorem trace_filter_late {State : Type} (states : List State) (subs : List Nat)
    (id : Nat) (h : id ∉ subs) :
    (((states.flatMap (fun s => (subs ++ [id]).map (fun j => (j, s)))).filter
        (fun e => e.1 == id)).map (fun e => e.2)) = states := by
  induction states with
  | nil => rfl
  | cons s rest ih =>
      have hsub : (subs.map (fun j => ((j, s) : SubEvent State))).filter
          (fun e => e.1 == id) = [] := by
        rw [List.filter_eq_nil_iff]
        intro e he
        rcases List.mem_map.mp he with ⟨j, hj, rfl⟩
        simp only [beq_iff_eq]
        intro hcontra
        exact h (hcontra ▸ hj)
      simp only [List.flatMap_cons]
      rw [List.map_append]
      simp only [List.filter_append, hsub, List.nil_append]
      simp [-List.map_append, ih]

theorem wrap_dispatch_single {State Action : Type} (w : StateWorker State Action)
    (a : Action) :
    StoreWithMiddleware.dispatch (Store.wrap w (fun x => [x])) a
      = (Store.wrap (Store.dispatch w a).1 (fun x => [x]), (Store.dispatch w a).2) := by
  simp [StoreWithMiddleware.dispatch, Store.wrap, dispatchAll]

theorem wrap_select_forward {State Action OuterAction R : Type}
    (w : StateWorker State Action) (m : MiddleWare Action OuterAction)
    (f : State → R) :
    StoreWithMiddleware.select (Store.wrap w m) f = Store.select w f := rfl

theorem wrap_state_cloned_forward {State Action OuterAction : Type}
    (w : StateWorker State Action) (m : MiddleWare Action OuterAction) :
    StoreWithMiddleware.state_cloned (Store.wrap w m) = Store.state_cloned w := rfl

theorem wrap_subscribe_forward {State Action OuterAction : Type}
    (w : StateWorker State Action) (m : MiddleWare Action OuterAction) (id : Nat) :
    StoreWithMiddleware.subscribe (Store.wrap w m) id
      = Store.wrap (Store.subscribe w id) m := rfl

/-- C1: For every reducer `r`, initial state `s0`, and sequence of actions
dispatched one at a time from a single caller (each dispatch awaited before
the next), the store's state after the k-th dispatch completes equals the
left fold of `r` over the first k actions; in particular, with the counter
reducer and initial state 42, dispatching Increment, Increment, Decrement
yields state 43. -/
theorem dispatch_is_left_fold :
    (∀ (State Action : Type) (r : State → Action → State) (s0 : State)
        (as : List Action) (k : Nat),
      (dispatchAll (Store.new_with_state r s0) (as.take k)).1.state
        = List.foldl r s0 (as.take k))
    ∧ (dispatchAll (Store.new_with_state counter_reducer (Counter.mk 42))
        [CounterAction.Increment, CounterAction.Increment,
          CounterAction.Decrement]).1.state = Counter.mk 43 := by
  constructor
  · intro State Action r s0 as k
    simp [dispatchAll_fst, Store.new_with_state]
  · decide

/-- C2: For every store, dispatched action `a`, and selector `f`, a select
issued and awaited strictly after the dispatch of `a` has completed returns
`f` applied to the state produced by that dispatch, reflecting that dispatch
and no dispatch processed afterward. -/
theorem select_after_dispatch :
    ∀ (State Action V : Type) (r : State → Action → State) (s0 : State)
      (subs : List Nat) (a : Action) (f : State → V),
      (runOps (StateWorker.mk r s0 subs) [Op.dispatch a, Op.select f]).2.1
        = [Out.done, Out.value (f (r s0 a))] := by
  intro State Action V r s0 subs a f
  rfl

/-- C6: `state_cloned()` is equivalent to select with the identity-clone
selector — it equals `select(fun s => s.clone())` in result, returns the
current authoritative state, and has no effect on the store; in particular,
`new_with_state(reducer, 5)` followed immediately by `state_cloned()`
returns 5. -/
theorem state_cloned_is_select_clone :
    (∀ (State Action : Type) (w : StateWorker State Action),
      Store.state_cloned w = Store.select w (fun s => s)
      ∧ Store.state_cloned w = w.state
      ∧ @runOps State Action State w [Op.state_cloned]
          = (w, [Out.state w.state], []))
    ∧ Store.state_cloned
        (Store.new_with_state counter_reducer (Counter.mk 5)) = Counter.mk 5 :=
  ⟨fun _ _ _ => ⟨rfl, rfl, rfl⟩, rfl⟩

/-- C7: For every reducer whose state type has a default value, the store
produced by `new(reducer)` behaves identically to the store produced by
`new_with_state(reducer, State::default())`: every subsequent sequence of
operations yields the same results on both. -/
theorem new_is_new_with_state_default :
    ∀ (State Action V : Type) [Inhabited State] (r : State → Action → State)
      (ops : List (Op State Action V)),
      runOps (Store.new r) ops = runOps (Store.new_with_state r default) ops := by
  intro State Action V inst r ops
  rfl

/-- C8: Repeated selects with the same selector and no intervening dispatch
return identical results — each of the n replies is the selector applied to
the unchanged state — and the select calls leave the store unchanged and
invoke no subscriber. -/
theorem select_idempotent_no_dispatch :
    ∀ (State Action V : Type) (w : StateWorker State Action) (f : State → V)
      (n : Nat),
      runOps w (List.replicate n (Op.select f))
        = (w, List.replicate n (Out.value (f w.state)), []) := by
  intro State Action V w f n
  induction n with
  | zero => rfl
  | succ k ih =>
      simp [List.replicate_succ, runOps, Store.select, StateWorker.handleSelect, ih]

/-- C9: The `StoreApi` trait-level dispatch on a `Store` equals the inherent
`Store::dispatch` applied to `action.into()`: the `Into` conversion is
applied exactly once before the action is sent, so both produce the same
state transition. -/
theorem storeapi_dispatch_is_inherent :
    ∀ (State Action A : Type) (conv : A → Action) (w : StateWorker State Action)
      (a : A),
      StoreApi.dispatch conv w a = Store.dispatch w (conv a)
      ∧ (StoreApi.dispatch conv w a).1.state = w.root_reducer w.state (conv a) :=
  fun _ _ _ _ _ _ => ⟨rfl, rfl⟩

/-- C3: For n awaited dispatches, each subscriber registered before the
sequence is invoked once per dispatch with the state produced by that
dispatch, subscribers running in registration order for each dispatch (the
trace is exactly the post-dispatch states, each paired with every subscriber
in list order); a subscriber registered exactly once is invoked exactly n
times; and a subscriber summing post-dispatch states over Increment,
Increment, Decrement from initial state 42 accumulates 43 + 44 + 43 = 130. -/
theorem subscriber_completeness :
    (∀ (State Action : Type) (r : State → Action → State) (s0 : State)
        (subs : List Nat) (as : List Action),
      (dispatchAll (StateWorker.mk r s0 subs) as).2
        = (dispatchStates r s0 as).flatMap
            (fun s => subs.map (fun id => (id, s)))
      ∧ ∀ id : Nat,
          (((dispatchAll (StateWorker.mk r s0 subs) as).2).filter
              (fun e => e.1 == id)).length = as.length * subs.count id)
    ∧ (((dispatchAll (StateWorker.mk counter_reducer (Counter.mk 42) [0])
          [CounterAction.Increment, CounterAction.Increment,
            CounterAction.Decrement]).2).map (fun e => e.2.value)).sum = 130 := by
  constructor
  · intro State Action r s0 subs as
    constructor
    · simpa using dispatchAll_snd as (StateWorker.mk r s0 subs)
    · intro id
      rw [dispatchAll_snd]
      simp only
      rw [trace_filter_length]
      simp [length_dispatchStates]
  · decide

/-- C4: A store wrapped with a no-op middleware (forwarding every outer
action unchanged as the matching inner action, and forwarding
select/subscribe/state_cloned unchanged) is observationally equivalent to
the unwrapped store: every sequence of operations produces identical
per-operation results and subscriber invocations, and the final inner store
is the final state of the unwrapped run. -/
theorem noop_middleware_equiv :
    ∀ (State Action V : Type) (w : StateWorker State Action)
      (ops : List (Op State Action V)),
      runOpsMW (Store.wrap w (fun x => [x])) ops
        = (Store.wrap (runOps w ops).1 (fun x => [x]), (runOps w ops).2) := by
  intro State Action V w ops
  induction ops generalizing w with
  | nil => rfl
  | cons op rest ih =>
      cases op with
      | dispatch a =>
          simp only [runOpsMW, runOps, wrap_dispatch_single, ih]
      | select f =>
          simp only [runOpsMW, runOps, wrap_select_forward, ih]
      | subscribe id =>
          simp only [runOpsMW, runOps, wrap_subscribe_forward, ih]
      | state_cloned =>
          simp only [runOpsMW, runOps, wrap_state_cloned_forward, ih]

/-- C5: For every store wrapped with a middleware whose dispatch never
forwards any inner action, the inner store is unchanged by every sequence of
outer dispatches, and `state_cloned` through the wrapper returns the same
value as before the sequence. -/
theorem short_circuit_preserves_state :
    ∀ (State Action OuterAction V : Type) (w : StateWorker State Action)
      (m : MiddleWare Action OuterAction),
      (∀ b, m b = []) →
      ∀ (as : List OuterAction),
        (@runOpsMW State Action OuterAction V (Store.wrap w m)
            (as.map Op.dispatch)).1.inner = w
        ∧ StoreWithMiddleware.state_cloned
            (@runOpsMW State Action OuterAction V (Store.wrap w m)
              (as.map Op.dispatch)).1 = Store.state_cloned w := by
  intro State Action OuterAction V w m h as
  have key : ∀ (bs : List OuterAction)
      (st : StoreWithMiddleware State Action OuterAction),
      (∀ b, st.middleware b = []) →
      (@runOpsMW State Action OuterAction V st (bs.map Op.dispatch)).1 = st := by
    intro bs
    induction bs with
    | nil => intro st hst; rfl
    | cons b rest ihb =>
        intro st hst
        have hdisp : StoreWithMiddleware.dispatch st b = (st, []) := by
          simp [StoreWithMiddleware.dispatch, hst b, dispatchAll]
        simp only [List.map_cons, runOpsMW, hdisp]
        exact ihb st hst
  have hkey := key as (Store.wrap w m) h
  refine ⟨?_, ?_⟩
  · rw [hkey]
    rfl
  · rw [hkey]
    rfl

/-- C10: A subscriber registered after k dispatches have completed is never
invoked for those earlier dispatches, and over the dispatches processed after
its Subscribe message it observes exactly the post-dispatch states, in order
(zero invocations when no dispatch follows its registration). -/
theorem late_subscriber_sees_only_later :
    ∀ (State Action : Type) (r : State → Action → State) (s0 : State)
      (subs : List Nat) (id : Nat) (as bs : List Action),
      id ∉ subs →
      ((dispatchAll (StateWorker.mk r s0 subs) as).2.filter
          (fun e => e.1 == id)) = []
      ∧ (((dispatchAll
              (Store.subscribe (dispatchAll (StateWorker.mk r s0 subs) as).1 id)
              bs).2.filter (fun e => e.1 == id)).map (fun e => e.2))
          = dispatchStates r (List.foldl r s0 as) bs := by
  intro State Action r s0 subs id as bs h
  constructor
  · rw [dispatchAll_snd]
    exact trace_filter_not_mem _ _ _ h
  · have h1 : (dispatchAll (StateWorker.mk r s0 subs) as).1
        = StateWorker.mk r (List.foldl r s0 as) subs := by
      simpa using dispatchAll_fst as (StateWorker.mk r s0 subs)
    rw [h1]
    simp only [Store.subscribe, StateWorker.handleSubscribe]
    rw [dispatchAll_snd]
    exact trace_filter_late _ _ _ h

/-- Witness for C5: the counter store with initial state 7 wrapped with the
middleware that forwards nothing; dispatching Increment through the wrapper
leaves the inner store, and its cloned state, unchanged. -/
theorem short_circuit_preserves_state_witness :
    (∀ b : CounterAction,
        (fun _ : CounterAction => ([] : List CounterAction)) b = [])
    ∧ ((@runOpsMW Counter CounterAction CounterAction Counter
          (Store.wrap (Store.new_with_state counter_reducer (Counter.mk 7))
            (fun _ => []))
          ([CounterAction.Increment].map Op.dispatch)).1.inner
        = Store.new_with_state counter_reducer (Counter.mk 7)
      ∧ StoreWithMiddleware.state_cloned
          (@runOpsMW Counter CounterAction CounterAction Counter
            (Store.wrap (Store.new_with_state counter_reducer (Counter.mk 7))
              (fun _ => []))
            ([CounterAction.Increment].map Op.dispatch)).1
        = Store.state_cloned (Store.new_with_state counter_reducer (Counter.mk 7))) :=
  ⟨fun _ => rfl,
    short_circuit_preserves_state Counter CounterAction CounterAction Counter
      (Store.new_with_state counter_reducer (Counter.mk 7)) (fun _ => [])
      (fun _ => rfl) [CounterAction.Increment]⟩

/-- Witness for C10: an empty initial subscriber list, subscriber 0
registered after one Increment dispatch; over the following Decrement
dispatch it observes exactly the one post-dispatch state 42, and nothing
from the earlier dispatch. -/
theorem late_subscriber_sees_only_later_witness :
    ((0 : Nat) ∉ ([] : List Nat))
    ∧ (((dispatchAll (StateWorker.mk counter_reducer (Counter.mk 42) [])
            [CounterAction.Increment]).2.filter (fun e => e.1 == 0)) = []
      ∧ (((dispatchAll
              (Store.subscribe
                (dispatchAll (StateWorker.mk counter_reducer (Counter.mk 42) [])
                  [CounterAction.Increment]).1 0)
              [CounterAction.Decrement]).2.filter
            (fun e => e.1 == 0)).map (fun e => e.2))
          = dispatchStates counter_reducer
              (List.foldl counter_reducer (Counter.mk 42)
                [CounterAction.Increment]) [CounterAction.Decrement]) :=
  ⟨by decide,
    late_subscriber_sees_only_later Counter CounterAction counter_reducer
      (Counter.mk 42) [] 0 [CounterAction.Increment] [CounterAction.Decrement]
      (by decide)⟩

end ReduxRs
